import Mathlib

/-!
Verification of the image-converter data model (`src/app/models.py`) and of the
Conversion Job Lifecycle Engine that the specification describes on top of it.

The Python source is a set of SQLModel entity declarations plus request/response
schemas; the lifecycle operations (`submit`, `claim`, `succeed`, `fail`,
`cancel`) exist only in the specification and are modelled here from its words.
Pydantic `Field(ge=..., le=..., max_length=...)` constraints become decidable
validation predicates; `Optional[T]` becomes `Option T`; Python `int` becomes
`Int`; `datetime` becomes an explicit calendar record with an `isoformat`
renderer matching `datetime.isoformat`.
-/

/-- Model of `ImageFormat(str, Enum)` from `src/app/models.py`: the seven supported
image formats for conversion. -/
inductive ImageFormat where
  | jpeg
  | jpg
  | png
  | webp
  | bmp
  | tiff
  | gif
  deriving DecidableEq, Repr

/-- The string value carried by each `ImageFormat` enum member. -/
def ImageFormat.value : ImageFormat → String
  | .jpeg => "jpeg"
  | .jpg => "jpg"
  | .png => "png"
  | .webp => "webp"
  | .bmp => "bmp"
  | .tiff => "tiff"
  | .gif => "gif"

/-- The list of all seven enumerated format values, in declaration order. -/
def ImageFormat.all : List ImageFormat :=
  [.jpeg, .jpg, .png, .webp, .bmp, .tiff, .gif]

/-- Model of `ConversionStatus(str, Enum)` from `src/app/models.py`: status of an image
conversion job. -/
inductive ConversionStatus where
  | pending
  | processing
  | completed
  | failed
  deriving DecidableEq, Repr

/-- The string value carried by each `ConversionStatus` enum member. -/
def ConversionStatus.value : ConversionStatus → String
  | .pending => "pending"
  | .processing => "processing"
  | .completed => "completed"
  | .failed => "failed"

/-- A Python `datetime.datetime` value: naive timestamp with microsecond
resolution. -/
structure DateTime where
  year : Nat
  month : Nat
  day : Nat
  hour : Nat
  minute : Nat
  second : Nat
  microsecond : Nat
  deriving DecidableEq, Repr

/-- Zero-pad the decimal rendering of `n` to width `w`, as Python field
formatting does inside `datetime.isoformat`. -/
def padNum (w : Nat) (n : Nat) : String :=
  let s := toString n
  let pad := w - s.length
  String.mk (List.replicate pad '0') ++ s

/-- Python `datetime.isoformat()`: `YYYY-MM-DDTHH:MM:SS`, with `.ffffff` appended
exactly when `microsecond` is nonzero. -/
def DateTime.isoformat (d : DateTime) : String :=
  padNum 4 d.year ++ "-" ++ padNum 2 d.month ++ "-" ++ padNum 2 d.day ++ "T" ++
    padNum 2 d.hour ++ ":" ++ padNum 2 d.minute ++ ":" ++ padNum 2 d.second ++
    (if d.microsecond = 0 then "" else "." ++ padNum 6 d.microsecond)

/-- A linearisation of a `DateTime` used only to compute elapsed seconds for
`processing_time_seconds`; no claim depends on its exact value. -/
def DateTime.linearSeconds (d : DateTime) : Int :=
  ((((d.year * 12 + d.month) * 31 + d.day) * 24 + d.hour) * 60 + d.minute) * 60
    + d.second

/-- Python `decimal.Decimal` as used for `processing_time_seconds`; the model
only ever stores whole-second durations, so an integer suffices. -/
abbrev Decimal := Int

/-- Elapsed seconds between two timestamps, as stored into
`processing_time_seconds` on a terminal transition. -/
def elapsedSeconds (startT endT : DateTime) : Decimal :=
  DateTime.linearSeconds endT - DateTime.linearSeconds startT

/-- Model of `UploadedImage` from `src/app/models.py`: metadata of an uploaded original
file. A persisted row has its primary key assigned, so `id : Int`. -/
structure UploadedImage where
  id : Int
  user_id : Option Int
  original_filename : String
  stored_filename : String
  file_path : String
  file_size : Int
  mime_type : String
  original_format : ImageFormat
  width : Option Int
  height : Option Int
  upload_date : DateTime
  is_deleted : Bool
  deriving DecidableEq, Repr

/-- The pydantic field constraints of `UploadedImage`: `file_size ≥ 0`,
`width ≥ 0` and `height ≥ 0` when present, and the `max_length` bounds. -/
def UploadedImage.validate (u : UploadedImage) : Bool :=
  u.original_filename.length ≤ 255 && u.stored_filename.length ≤ 255 &&
    u.file_path.length ≤ 500 && 0 ≤ u.file_size && u.mime_type.length ≤ 100 &&
    (match u.width with | none => true | some w => 0 ≤ w) &&
    (match u.height with | none => true | some h => 0 ≤ h)

/-- Model of `ConversionJob` from `src/app/models.py`: one request to transform one
`UploadedImage` into `target_format`. `source_image_id` is a non-nullable
foreign key (`Int`), while `user_id` is nullable (`Option Int`). -/
structure ConversionJob where
  id : Int
  user_id : Option Int
  source_image_id : Int
  target_format : ImageFormat
  status : ConversionStatus
  quality : Option Int
  width : Option Int
  height : Option Int
  maintain_aspect_ratio : Bool
  created_at : DateTime
  started_at : Option DateTime
  completed_at : Option DateTime
  error_message : Option String
  processing_time_seconds : Option Decimal
  deriving DecidableEq, Repr

/-- The pydantic field constraints of `ConversionJob`: `quality ∈ [1,100]`
when present, `width ≥ 1` and `height ≥ 1` when present, and the error
message length bound. -/
def ConversionJob.validate (j : ConversionJob) : Bool :=
  (match j.quality with | none => true | some q => 1 ≤ q && q ≤ 100) &&
    (match j.width with | none => true | some w => 1 ≤ w) &&
    (match j.height with | none => true | some h => 1 ≤ h) &&
    (match j.error_message with | none => true | some e => e.length ≤ 1000)

/-- Model of `ConvertedImage` from `src/app/models.py`: the output artifact of a
conversion job. `conversion_job_id` is a non-nullable foreign key declared
with `unique=True`. -/
structure ConvertedImage where
  id : Int
  conversion_job_id : Int
  filename : String
  file_path : String
  file_size : Int
  mime_type : String
  format : ImageFormat
  width : Int
  height : Int
  quality_used : Option Int
  created_at : DateTime
  download_count : Int
  last_downloaded_at : Option DateTime
  expires_at : Option DateTime
  is_deleted : Bool
  deriving DecidableEq, Repr

/-- The pydantic field constraints of `ConvertedImage`: `file_size ≥ 0`,
`width ≥ 0`, `height ≥ 0`, `quality_used ∈ [1,100]` when present,
`download_count ≥ 0`, and the `max_length` bounds. -/
def ConvertedImage.validate (c : ConvertedImage) : Bool :=
  c.filename.length ≤ 255 && c.file_path.length ≤ 500 && 0 ≤ c.file_size &&
    c.mime_type.length ≤ 100 && 0 ≤ c.width && 0 ≤ c.height &&
    (match c.quality_used with | none => true | some q => 1 ≤ q && q ≤ 100) &&
    0 ≤ c.download_count

/-- Model of `ConversionRequest` from `src/app/models.py`: the schema a client submits
to request a conversion. -/
structure ConversionRequest where
  source_image_id : Int
  target_format : ImageFormat
  user_id : Option Int
  quality : Option Int
  width : Option Int
  height : Option Int
  maintain_aspect_ratio : Bool
  deriving DecidableEq, Repr

/-- The pydantic field constraints of `ConversionRequest`: `quality ∈ [1,100]`
when present, `width ≥ 1` and `height ≥ 1` when present. -/
def ConversionRequest.validate (r : ConversionRequest) : Bool :=
  (match r.quality with | none => true | some q => 1 ≤ q && q ≤ 100) &&
    (match r.width with | none => true | some w => 1 ≤ w) &&
    (match r.height with | none => true | some h => 1 ≤ h)

/-- A Python value as it appears in the dictionary returned by
`SQLModel.dict()`: the field payloads occurring in the three response
schemas. -/
inductive Value where
  | vInt (n : Int)
  | vStr (s : String)
  | vDatetime (d : DateTime)
  | vFormat (f : ImageFormat)
  | vStatus (st : ConversionStatus)
  | vBool (b : Bool)
  | vDecimal (d : Decimal)
  | vNone
  deriving DecidableEq, Repr

/-- Python truthiness of a `Value`: `None` is falsy, numbers are falsy at
zero, strings when empty, and `datetime` objects are always truthy. -/
def Value.truthy : Value → Bool
  | .vNone => false
  | .vInt n => n ≠ 0
  | .vStr s => s ≠ ""
  | .vDatetime _ => true
  | .vFormat _ => true
  | .vStatus _ => true
  | .vBool b => b
  | .vDecimal d => d ≠ 0

/-- Lift an `Option` payload to a `Value`, as `SQLModel.dict()` renders
nullable columns. -/
def optInt : Option Int → Value
  | none => .vNone
  | some n => .vInt n

/-- Lift an optional datetime to a `Value`. -/
def optDatetime : Option DateTime → Value
  | none => .vNone
  | some d => .vDatetime d

/-- Lift an optional string to a `Value`. -/
def optStr : Option String → Value
  | none => .vNone
  | some s => .vStr s

/-- Lift an optional decimal to a `Value`. -/
def optDecimal : Option Decimal → Value
  | none => .vNone
  | some d => .vDecimal d

/-- The assignment `data[field] = data[field].isoformat()` on one entry: datetimes become
their ISO string; any other payload is returned unchanged. -/
def Value.iso : Value → Value
  | .vDatetime d => .vStr (DateTime.isoformat d)
  | v => v

/-- One pass of the Python loop body
`if field in data and data[field]: data[field] = data[field].isoformat()`:
rewrite the entries whose key is `field` and whose value is truthy. -/
def applyIso (data : List (String × Value)) (field : String) :
    List (String × Value) :=
  data.map fun kv =>
    if kv.1 = field && Value.truthy kv.2 then (kv.1, Value.iso kv.2) else kv

/-- Model of `ImageMetadata` from `src/app/models.py`: schema for the image metadata
response. -/
structure ImageMetadata where
  id : Int
  filename : String
  file_size : Int
  format : ImageFormat
  width : Option Int
  height : Option Int
  upload_date : DateTime
  mime_type : String
  deriving DecidableEq, Repr

/-- The base `super().dict()` for `ImageMetadata`: every declared field in order,
with no formatting applied. -/
def ImageMetadata.baseDict (m : ImageMetadata) : List (String × Value) :=
  [("id", .vInt m.id), ("filename", .vStr m.filename),
   ("file_size", .vInt m.file_size), ("format", .vFormat m.format),
   ("width", optInt m.width), ("height", optInt m.height),
   ("upload_date", .vDatetime m.upload_date), ("mime_type", .vStr m.mime_type)]

/-- Override `ImageMetadata.dict`: the base dictionary with `upload_date` run through
the isoformat rewrite. -/
def ImageMetadata.dict (m : ImageMetadata) : List (String × Value) :=
  applyIso (ImageMetadata.baseDict m) "upload_date"

/-- Model of `ConversionJobResponse` from `src/app/models.py`: schema for the
conversion job response. -/
structure ConversionJobResponse where
  id : Int
  source_image_id : Int
  target_format : ImageFormat
  status : ConversionStatus
  quality : Option Int
  width : Option Int
  height : Option Int
  maintain_aspect_ratio : Bool
  created_at : DateTime
  started_at : Option DateTime
  completed_at : Option DateTime
  error_message : Option String
  processing_time_seconds : Option Decimal
  deriving DecidableEq, Repr

/-- The base `super().dict()` for `ConversionJobResponse`. -/
def ConversionJobResponse.baseDict (r : ConversionJobResponse) :
    List (String × Value) :=
  [("id", .vInt r.id), ("source_image_id", .vInt r.source_image_id),
   ("target_format", .vFormat r.target_format), ("status", .vStatus r.status),
   ("quality", optInt r.quality), ("width", optInt r.width),
   ("height", optInt r.height),
   ("maintain_aspect_ratio", .vBool (ConversionJobResponse.maintain_aspect_ratio r)),
   ("created_at", .vDatetime r.created_at),
   ("started_at", optDatetime r.started_at),
   ("completed_at", optDatetime r.completed_at),
   ("error_message", optStr r.error_message),
   ("processing_time_seconds", optDecimal r.processing_time_seconds)]

/-- Override `ConversionJobResponse.dict`: the base dictionary with the loop over
`["created_at", "started_at", "completed_at"]` applied. -/
def ConversionJobResponse.dict (r : ConversionJobResponse) :
    List (String × Value) :=
  List.foldl applyIso (ConversionJobResponse.baseDict r)
    ["created_at", "started_at", "completed_at"]

/-- Model of `ConvertedImageResponse` from `src/app/models.py`: schema for the
converted image response. -/
structure ConvertedImageResponse where
  id : Int
  filename : String
  file_size : Int
  format : ImageFormat
  width : Int
  height : Int
  quality_used : Option Int
  created_at : DateTime
  download_count : Int
  last_downloaded_at : Option DateTime
  expires_at : Option DateTime
  deriving DecidableEq, Repr

/-- The base `super().dict()` for `ConvertedImageResponse`. -/
def ConvertedImageResponse.baseDict (c : ConvertedImageResponse) :
    List (String × Value) :=
  [("id", .vInt c.id), ("filename", .vStr c.filename),
   ("file_size", .vInt c.file_size), ("format", .vFormat c.format),
   ("width", .vInt c.width), ("height", .vInt c.height),
   ("quality_used", optInt c.quality_used),
   ("created_at", .vDatetime c.created_at),
   ("download_count", .vInt c.download_count),
   ("last_downloaded_at", optDatetime c.last_downloaded_at),
   ("expires_at", optDatetime c.expires_at)]

/-- Override `ConvertedImageResponse.dict`: the base dictionary with the loop over
`["created_at", "last_downloaded_at", "expires_at"]` applied. -/
def ConvertedImageResponse.dict (c : ConvertedImageResponse) :
    List (String × Value) :=
  List.foldl applyIso (ConvertedImageResponse.baseDict c)
    ["created_at", "last_downloaded_at", "expires_at"]

/-- Modelled from the spec: the error taxonomy of §7 restricted to what the
lifecycle operations raise (`ValidationError`, `ConflictError`,
`NotFoundError`). -/
inductive EngineError where
  | validationError (msg : String)
  | conflictError
  | notFoundError
  deriving DecidableEq, Repr

/-- The persisted state the Entity Store holds for the lifecycle engine: the
relational tables of uploaded images, conversion jobs and converted images. -/
structure Store where
  images : List UploadedImage
  jobs : List ConversionJob
  converted : List ConvertedImage
  deriving DecidableEq, Repr

/-- The schema-level constraints of the four tables: primary keys are unique,
`ConvertedImage.conversion_job_id` is declared `unique=True`, and both foreign
keys (`conversion_job_id`, `source_image_id`) reference existing rows. -/
def Store.wf (s : Store) : Prop :=
  (List.map UploadedImage.id s.images).Nodup ∧
    (List.map ConversionJob.id s.jobs).Nodup ∧
    (List.map ConvertedImage.conversion_job_id s.converted).Nodup ∧
    (∀ c ∈ s.converted, ∃ j ∈ s.jobs,
      ConversionJob.id j = ConvertedImage.conversion_job_id c) ∧
    (∀ j ∈ s.jobs, ∃ img ∈ s.images,
      UploadedImage.id img = ConversionJob.source_image_id j)

/-- Modelled from the spec: the formats the codec adapter supports (§4.3),
exactly the seven enumerated values. -/
def supportedFormats : List ImageFormat := ImageFormat.all

/-- Modelled from the spec: `submit(ConversionRequest) -> ConversionJob`
(§4.4): validates that the source image exists and is not deleted, the target
format is supported, and the request passes its field validation
(`quality ∈ [1,100]`, `width/height ≥ 1` when present); creates a PENDING job;
otherwise fails with `ValidationError` and leaves the store unchanged. -/
def submit (s : Store) (now : DateTime) (newId : Int) (req : ConversionRequest) :
    Except EngineError ConversionJob × Store :=
  if (s.images.any fun img =>
        UploadedImage.id img == req.source_image_id && !img.is_deleted) &&
      supportedFormats.contains req.target_format &&
      ConversionRequest.validate req then
    let job : ConversionJob :=
      { id := newId
        user_id := req.user_id
        source_image_id := req.source_image_id
        target_format := req.target_format
        status := .pending
        quality := req.quality
        width := req.width
        height := req.height
        maintain_aspect_ratio := ConversionRequest.maintain_aspect_ratio req
        created_at := now
        started_at := none
        completed_at := none
        error_message := none
        processing_time_seconds := none }
    (Except.ok job, { s with jobs := s.jobs ++ [job] })
  else (Except.error (.validationError "invalid conversion request"), s)

/-- Modelled from the spec: the `claim()` transition (§4.4), a single atomic
conditional update PENDING → PROCESSING that sets `started_at = now`; any
other state loses the race and gets the conflict (skip) signal. -/
def ConversionJob.claim (j : ConversionJob) (now : DateTime) :
    Except EngineError ConversionJob :=
  if j.status = .pending then
    Except.ok { j with status := .processing, started_at := some now }
  else Except.error .conflictError

/-- Modelled from the spec: the `succeed(artifact)` transition (§4.4),
PROCESSING → COMPLETED: sets `completed_at = now` and
`processing_time_seconds = completed_at − started_at`. -/
def ConversionJob.succeed (j : ConversionJob) (now : DateTime) :
    Except EngineError ConversionJob :=
  match j.status, j.started_at with
  | .processing, some st =>
      Except.ok { j with status := .completed, completed_at := some now,
                         processing_time_seconds := some (elapsedSeconds st now) }
  | _, _ => Except.error .conflictError

/-- Modelled from the spec: the `fail(error)` transition (§4.4),
PROCESSING → FAILED: sets `completed_at = now`, `error_message = error`, and
computes `processing_time_seconds`. -/
def ConversionJob.fail (j : ConversionJob) (now : DateTime) (err : String) :
    Except EngineError ConversionJob :=
  match j.status, j.started_at with
  | .processing, some st =>
      Except.ok { j with status := .failed, completed_at := some now,
                         error_message := some err,
                         processing_time_seconds := some (elapsedSeconds st now) }
  | _, _ => Except.error .conflictError

/-- Modelled from the spec: the `cancel()` transition (§4.4), permitted from
PENDING or PROCESSING only; its stated effect is
`error_message = "cancelled"` together with the move to FAILED — the spec's
transition table sets no timestamp here. -/
def ConversionJob.cancel (j : ConversionJob) : Except EngineError ConversionJob :=
  if j.status = .pending ∨ j.status = .processing then
    Except.ok { j with status := .failed, error_message := some "cancelled" }
  else Except.error .conflictError

/-- Replace every job row carrying the id of the updated record; with unique
primary keys this is the row update of §4.1. -/
def Store.updateJob (s : Store) (j : ConversionJob) : Store :=
  { s with jobs := s.jobs.map fun k =>
      if ConversionJob.id k == ConversionJob.id j then j else k }

/-- Modelled from the spec: `claim()` lifted to the store, the conditional
update the Entity Store executes for a worker. -/
def claimOp (s : Store) (jobId : Int) (now : DateTime) :
    Except EngineError Store :=
  match s.jobs.find? fun j => ConversionJob.id j == jobId with
  | none => Except.error .notFoundError
  | some j =>
    match ConversionJob.claim j now with
    | Except.ok j' => Except.ok (s.updateJob j')
    | Except.error e => Except.error e

/-- Modelled from the spec: `succeed(artifact)` lifted to the store: the job
moves to COMPLETED and the `ConvertedImage` record is persisted with its
foreign key set to the job. -/
def succeedOp (s : Store) (jobId : Int) (now : DateTime)
    (artifact : ConvertedImage) : Except EngineError Store :=
  match s.jobs.find? fun j => ConversionJob.id j == jobId with
  | none => Except.error .notFoundError
  | some j =>
    match ConversionJob.succeed j now with
    | Except.ok j' =>
        let artRow := { artifact with conversion_job_id := ConversionJob.id j }
        Except.ok { s.updateJob j' with converted := s.converted ++ [artRow] }
    | Except.error e => Except.error e

/-- Modelled from the spec: `fail(error)` lifted to the store. -/
def failOp (s : Store) (jobId : Int) (now : DateTime) (err : String) :
    Except EngineError Store :=
  match s.jobs.find? fun j => ConversionJob.id j == jobId with
  | none => Except.error .notFoundError
  | some j =>
    match ConversionJob.fail j now err with
    | Except.ok j' => Except.ok (s.updateJob j')
    | Except.error e => Except.error e

/-- Modelled from the spec: `cancel()` lifted to the store. -/
def cancelOp (s : Store) (jobId : Int) : Except EngineError Store :=
  match s.jobs.find? fun j => ConversionJob.id j == jobId with
  | none => Except.error .notFoundError
  | some j =>
    match ConversionJob.cancel j with
    | Except.ok j' => Except.ok (s.updateJob j')
    | Except.error e => Except.error e

/-- The §3 invariant of one `ConversionJob` inside a store: `started_at` set
iff the status is PROCESSING, COMPLETED or FAILED; `completed_at` set iff the
status is COMPLETED or FAILED; an associated `ConvertedImage` exists iff the
status is COMPLETED. -/
def jobInvariant (s : Store) (j : ConversionJob) : Prop :=
  (Option.isSome j.started_at = true ↔
      (j.status = .processing ∨ j.status = .completed ∨ j.status = .failed)) ∧
    (Option.isSome j.completed_at = true ↔
      (j.status = .completed ∨ j.status = .failed)) ∧
    ((∃ c ∈ s.converted,
        ConvertedImage.conversion_job_id c = ConversionJob.id j) ↔
      j.status = .completed)

/-- The §3 invariant for every job of the store. -/
def storeInvariant (s : Store) : Prop :=
  ∀ j ∈ s.jobs, jobInvariant s j

/-- Modelled from the spec: N workers racing on one job are linearised by the
atomic conditional update of §4.4: the attempts execute in some sequential
order, each either winning (`true`) or receiving the skip signal (`false`). -/
def runClaimRace (j : ConversionJob) (attempts : List DateTime) :
    ConversionJob × List Bool :=
  match attempts with
  | [] => (j, [])
  | t :: rest =>
    match ConversionJob.claim j t with
    | Except.ok j' =>
        let r := runClaimRace j' rest
        (r.1, true :: r.2)
    | Except.error _ =>
        let r := runClaimRace j rest
        (r.1, false :: r.2)

/-- What the serialization override does to an optional datetime field: a null
stays null, a present datetime becomes its ISO-8601 string. -/
def isoOpt : Option DateTime → Value
  | none => .vNone
  | some d => .vStr (DateTime.isoformat d)

/-- A sample timestamp used to exercise the lifecycle on concrete data. -/
def exNow : DateTime := ⟨2024, 1, 1, 12, 0, 0, 0⟩

/-- A later sample timestamp. -/
def exLater : DateTime := ⟨2024, 1, 1, 12, 0, 5, 0⟩

/-- A sample uploaded image (id 10, not deleted). -/
def exImage : UploadedImage :=
  { id := 10, user_id := none, original_filename := "a.png",
    stored_filename := "a_1.png", file_path := "u/a_1.png", file_size := 1,
    mime_type := "image/png", original_format := .png, width := some 4,
    height := some 2, upload_date := exNow, is_deleted := false }

/-- A sample valid conversion request targeting image 10. -/
def exReq : ConversionRequest :=
  { source_image_id := 10, target_format := .webp, user_id := none,
    quality := some 80, width := some 100, height := none,
    maintain_aspect_ratio := true }

/-- A store holding only the sample image. -/
def exStoreInit : Store := ⟨[exImage], [], []⟩

/-- The job `submit` creates from `exReq` in `exStoreInit` with id 1. -/
def exSubmittedJob : ConversionJob :=
  { id := 1, user_id := none, source_image_id := 10, target_format := .webp,
    status := .pending, quality := some 80, width := some 100, height := none,
    maintain_aspect_ratio := true, created_at := exNow, started_at := none,
    completed_at := none, error_message := none,
    processing_time_seconds := none }

/-- The store after the sample submission. -/
def exStoreAfter : Store := ⟨[exImage], [exSubmittedJob], []⟩

/-- The sample job once claimed. -/
def exClaimedJob : ConversionJob :=
  { exSubmittedJob with status := .processing, started_at := some exNow }

/-- The store after the sample job is claimed. -/
def exClaimedStore : Store := ⟨[exImage], [exClaimedJob], []⟩

/-- The sample job after `cancel()`, exactly as the spec's transition table
writes it: status FAILED and `error_message = "cancelled"`, timestamps
untouched. -/
def exCancelledJob : ConversionJob :=
  { exSubmittedJob with status := .failed, error_message := some "cancelled" }

/-- The store after cancelling the sample pending job. -/
def exCancelledStore : Store := ⟨[exImage], [exCancelledJob], []⟩

/-- A sample converted-image artifact for job 1. -/
def exArtifact : ConvertedImage :=
  { id := 5, conversion_job_id := 1, filename := "out.webp",
    file_path := "c/out.webp", file_size := 2, mime_type := "image/webp",
    format := .webp, width := 100, height := 50, quality_used := some 80,
    created_at := exLater, download_count := 0, last_downloaded_at := none,
    expires_at := none, is_deleted := false }

/-- The sample job once completed. -/
def exCompletedJob : ConversionJob :=
  { exClaimedJob with
    status := .completed, completed_at := some exLater,
    processing_time_seconds := some (elapsedSeconds exNow exLater) }

/-- A well-formed store holding a completed job and its artifact. -/
def exStoreDone : Store := ⟨[exImage], [exCompletedJob], [exArtifact]⟩

/-- C7: every value of the `ImageFormat` type is one of exactly the seven
enumerated formats JPEG, JPG, PNG, WEBP, BMP, TIFF, GIF, they are pairwise
distinct, and their enum string values are the seven expected strings. -/
theorem image_format_exactly_seven :
    (∀ f : ImageFormat, f ∈ ImageFormat.all) ∧
      List.Nodup ImageFormat.all ∧ List.length ImageFormat.all = 7 ∧
      List.map ImageFormat.value ImageFormat.all =
        ["jpeg", "jpg", "png", "webp", "bmp", "tiff", "gif"] := by
  refine ⟨fun f => ?_, by decide, by decide, rfl⟩
  cases f <;> decide

/-- C8: every value of the `ConversionStatus` type — in particular the
`status` field of every `ConversionJob` — is one of exactly the four values
PENDING, PROCESSING, COMPLETED, FAILED. -/
theorem conversion_status_exactly_four :
    (∀ st : ConversionStatus,
        st = .pending ∨ st = .processing ∨ st = .completed ∨ st = .failed) ∧
      ∀ j : ConversionJob,
        ConversionJob.status j = .pending ∨
          ConversionJob.status j = .processing ∨
          ConversionJob.status j = .completed ∨
          ConversionJob.status j = .failed := by
  constructor
  · intro st; cases st
    · exact Or.inl rfl
    · exact Or.inr (Or.inl rfl)
    · exact Or.inr (Or.inr (Or.inl rfl))
    · exact Or.inr (Or.inr (Or.inr rfl))
  · intro j; cases h : ConversionJob.status j
    · exact Or.inl rfl
    · exact Or.inr (Or.inl rfl)
    · exact Or.inr (Or.inr (Or.inl rfl))
    · exact Or.inr (Or.inr (Or.inr rfl))

/-- C2: whenever `submit` accepts a request, the job it returns has status
PENDING, `started_at` and `completed_at` both null, and is persisted into the
resulting store. -/
theorem submit_creates_pending (s : Store) (now : DateTime) (newId : Int)
    (req : ConversionRequest) (j : ConversionJob) (s' : Store)
    (h : submit s now newId req = (Except.ok j, s')) :
    ConversionJob.status j = .pending ∧ ConversionJob.started_at j = none ∧
      ConversionJob.completed_at j = none ∧ j ∈ s'.jobs := by
  unfold submit at h
  split at h
  · simp only [Prod.mk.injEq, Except.ok.injEq] at h
    obtain ⟨hj, hs⟩ := h
    subst hj
    subst hs
    exact ⟨rfl, rfl, rfl, by simp⟩
  · simp at h

/-- C2 witness: the sample submission yields the expected pending job. -/
theorem submit_creates_pending_witness :
    ConversionJob.status exSubmittedJob = .pending ∧
      ConversionJob.started_at exSubmittedJob = none ∧
      ConversionJob.completed_at exSubmittedJob = none ∧
      exSubmittedJob ∈ Store.jobs exStoreAfter :=
  submit_creates_pending exStoreInit exNow 1 exReq exSubmittedJob exStoreAfter
    rfl

/-- C6: every `ConvertedImage` that passes its field validation has
`width ≥ 0`, `height ≥ 0`, `quality_used ∈ [1,100]` whenever present, and
`download_count ≥ 0`. -/
theorem converted_image_bounds (c : ConvertedImage)
    (h : ConvertedImage.validate c = true) :
    0 ≤ ConvertedImage.width c ∧ 0 ≤ ConvertedImage.height c ∧
      (∀ q ∈ ConvertedImage.quality_used c, 1 ≤ q ∧ q ≤ 100) ∧
      0 ≤ ConvertedImage.download_count c := by
  unfold ConvertedImage.validate at h
  obtain ⟨id, cj, fn, fp, fs, mt, fmt, w, ht, qu, ca, dc, ld, ex, del⟩ := c
  simp only [Bool.and_eq_true, decide_eq_true_eq] at h
  refine ⟨h.1.1.1.2, h.1.1.2, ?_, h.2⟩
  intro q hq
  cases qu with
  | none => simp at hq
  | some q' =>
    simp only [Option.mem_def, Option.some.injEq] at hq
    subst hq
    have hm := h.1.2
    simp only [Bool.and_eq_true, decide_eq_true_eq] at hm
    exact hm

/-- C6 witness: the sample artifact validates and satisfies the bounds. -/
theorem converted_image_bounds_witness :
    0 ≤ ConvertedImage.width exArtifact ∧
      0 ≤ ConvertedImage.height exArtifact ∧
      (∀ q ∈ ConvertedImage.quality_used exArtifact, 1 ≤ q ∧ q ≤ 100) ∧
      0 ≤ ConvertedImage.download_count exArtifact :=
  converted_image_bounds exArtifact (by decide)

/-- C10: for `ImageMetadata`, `ConversionJobResponse` and
`ConvertedImageResponse`, the `dict()` override replaces each non-null
datetime field by its ISO-8601 string, leaves null datetime fields as null,
and leaves every other field unchanged. -/
theorem response_dict_iso_serialization (m : ImageMetadata)
    (r : ConversionJobResponse) (c : ConvertedImageResponse) :
    ImageMetadata.dict m =
        [("id", .vInt m.id), ("filename", .vStr m.filename),
         ("file_size", .vInt m.file_size), ("format", .vFormat m.format),
         ("width", optInt m.width), ("height", optInt m.height),
         ("upload_date", .vStr (DateTime.isoformat m.upload_date)),
         ("mime_type", .vStr m.mime_type)] ∧
      ConversionJobResponse.dict r =
        [("id", .vInt r.id), ("source_image_id", .vInt r.source_image_id),
         ("target_format", .vFormat r.target_format),
         ("status", .vStatus r.status), ("quality", optInt r.quality),
         ("width", optInt r.width), ("height", optInt r.height),
         ("maintain_aspect_ratio",
           .vBool (ConversionJobResponse.maintain_aspect_ratio r)),
         ("created_at", .vStr (DateTime.isoformat r.created_at)),
         ("started_at", isoOpt r.started_at),
         ("completed_at", isoOpt r.completed_at),
         ("error_message", optStr r.error_message),
         ("processing_time_seconds", optDecimal r.processing_time_seconds)] ∧
      ConvertedImageResponse.dict c =
        [("id", .vInt c.id), ("filename", .vStr c.filename),
         ("file_size", .vInt c.file_size), ("format", .vFormat c.format),
         ("width", .vInt c.width), ("height", .vInt c.height),
         ("quality_used", optInt c.quality_used),
         ("created_at", .vStr (DateTime.isoformat c.created_at)),
         ("download_count", .vInt c.download_count),
         ("last_downloaded_at", isoOpt c.last_downloaded_at),
         ("expires_at", isoOpt c.expires_at)] := by
  refine ⟨rfl, ?_, ?_⟩
  · obtain ⟨i, si, tf, st, q, w, ht, ar, ca, sa, co, em, pt⟩ := r
    cases sa <;> cases co <;> rfl
  · obtain ⟨i, fn, fs, fm, w, ht, qu, ca, dc, ld, ex⟩ := c
    cases ld <;> cases ex <;> rfl

/-- The request validation Bool, unfolded to its arithmetic content. -/
theorem ConversionRequest.validate_iff (r : ConversionRequest) :
    ConversionRequest.validate r = true ↔
      ((∀ q ∈ ConversionRequest.quality r, 1 ≤ q ∧ q ≤ 100) ∧
        (∀ w ∈ ConversionRequest.width r, 1 ≤ w) ∧
        ∀ ht ∈ ConversionRequest.height r, 1 ≤ ht) := by
  obtain ⟨si, tf, u, q, w, ht, ar⟩ := r
  unfold ConversionRequest.validate
  cases q <;> cases w <;> cases ht <;> simp [and_assoc]

/-- C3: `submit` accepts a request iff the source image exists and is not
deleted, the target format is one of the supported formats, and the optional
quality/width/height fields pass their bounds; on rejection it returns an
error and leaves the store unchanged, so no job is persisted. -/
theorem submit_accepts_iff (s : Store) (now : DateTime) (newId : Int)
    (req : ConversionRequest) :
    ((∃ j s', submit s now newId req = (Except.ok j, s')) ↔
        ((∃ img ∈ s.images,
            UploadedImage.id img = ConversionRequest.source_image_id req ∧
              UploadedImage.is_deleted img = false) ∧
          ConversionRequest.target_format req ∈ supportedFormats ∧
          (∀ q ∈ ConversionRequest.quality req, 1 ≤ q ∧ q ≤ 100) ∧
          (∀ w ∈ ConversionRequest.width req, 1 ≤ w) ∧
          ∀ ht ∈ ConversionRequest.height req, 1 ≤ ht)) ∧
      ∀ e s', submit s now newId req = (Except.error e, s') → s' = s := by
  have hcond :
      ((s.images.any fun img =>
          UploadedImage.id img == ConversionRequest.source_image_id req &&
            !img.is_deleted) &&
        supportedFormats.contains (ConversionRequest.target_format req) &&
        ConversionRequest.validate req) = true ↔
      ((∃ img ∈ s.images,
          UploadedImage.id img = ConversionRequest.source_image_id req ∧
            UploadedImage.is_deleted img = false) ∧
        ConversionRequest.target_format req ∈ supportedFormats ∧
        (∀ q ∈ ConversionRequest.quality req, 1 ≤ q ∧ q ≤ 100) ∧
        (∀ w ∈ ConversionRequest.width req, 1 ≤ w) ∧
        ∀ ht ∈ ConversionRequest.height req, 1 ≤ ht) := by
    simp only [Bool.and_eq_true, List.any_eq_true, beq_iff_eq,
      Bool.not_eq_true', List.elem_iff, ConversionRequest.validate_iff,
      and_assoc]
  refine ⟨⟨?_, ?_⟩, ?_⟩
  · rintro ⟨j, s', hok⟩
    unfold submit at hok
    split at hok
    next hc => exact hcond.mp hc
    next hc => simp at hok
  · intro hr
    have hc := hcond.mpr hr
    rcases hsub : submit s now newId req with ⟨res, s2⟩
    cases res with
    | ok j => exact ⟨j, s2, rfl⟩
    | error e =>
      exfalso
      unfold submit at hsub
      rw [if_pos hc] at hsub
      simp at hsub
  · intro e s' herr
    unfold submit at herr
    split at herr
    · simp at herr
    · simp only [Prod.mk.injEq] at herr
      exact herr.2.symm

/-- A worker racing on a job that is no longer PENDING always receives the
conflict signal and never changes the job. -/
theorem runClaimRace_not_pending (j : ConversionJob) (attempts : List DateTime)
    (h : ConversionJob.status j ≠ .pending) :
    runClaimRace j attempts = (j, List.replicate attempts.length false) := by
  induction attempts with
  | nil => rfl
  | cons t rest ih =>
    unfold runClaimRace ConversionJob.claim
    rw [if_neg h]
    simp only [List.length_cons, List.replicate_succ]
    rw [ih]

/-- C4: the `claim()` transition is exclusive — when any positive number of
workers race on a PENDING job, the linearised execution grants `claim()` to
exactly one of them, every other caller receives the skip/conflict signal,
and the job ends PROCESSING. -/
theorem claim_exclusive (j : ConversionJob) (attempts : List DateTime)
    (hp : ConversionJob.status j = .pending) (hne : attempts ≠ []) :
    List.count true (runClaimRace j attempts).2 = 1 ∧
      ConversionJob.status (runClaimRace j attempts).1 = .processing ∧
      List.length (runClaimRace j attempts).2 = List.length attempts := by
  cases attempts with
  | nil => exact absurd rfl hne
  | cons t rest =>
    have hclaim : ConversionJob.claim j t =
        Except.ok { j with status := .processing, started_at := some t } := by
      unfold ConversionJob.claim
      rw [if_pos hp]
    have hstuck := runClaimRace_not_pending
      { j with status := .processing, started_at := some t } rest (by simp)
    unfold runClaimRace
    rw [hclaim]
    simp only [hstuck]
    refine ⟨?_, trivial, by simp⟩
    simp [List.count_replicate]

/-- C4 witness: two workers race on the sample pending job; exactly one wins
and the job ends PROCESSING. -/
theorem claim_exclusive_witness :
    List.count true (runClaimRace exSubmittedJob [exNow, exLater]).2 = 1 ∧
      ConversionJob.status (runClaimRace exSubmittedJob [exNow, exLater]).1 =
        .processing ∧
      List.length (runClaimRace exSubmittedJob [exNow, exLater]).2 =
        List.length [exNow, exLater] :=
  claim_exclusive exSubmittedJob [exNow, exLater] rfl (by decide)

/-- C5: in a store satisfying the schema constraints, every `ConvertedImage`
is the artifact of exactly one `ConversionJob` (its `conversion_job_id` — a
non-nullable `Int` column — resolves to a unique job), and no two
`ConvertedImage` rows share a `conversion_job_id`, so each job has at most
one artifact. -/
theorem converted_image_one_to_one (s : Store) (hwf : Store.wf s) :
    (∀ c ∈ s.converted, ∃! j, j ∈ s.jobs ∧
        ConversionJob.id j = ConvertedImage.conversion_job_id c) ∧
      ∀ c ∈ s.converted, ∀ c2 ∈ s.converted,
        ConvertedImage.conversion_job_id c =
            ConvertedImage.conversion_job_id c2 → c = c2 := by
  obtain ⟨-, hjobs, hconv, hfk, -⟩ := hwf
  constructor
  · intro c hc
    obtain ⟨j, hj, hid⟩ := hfk c hc
    refine ⟨j, ⟨hj, hid⟩, ?_⟩
    rintro j2 ⟨hj2, hid2⟩
    exact List.inj_on_of_nodup_map hjobs hj2 hj (by rw [hid2, hid])
  · intro c hc c2 hc2 heq
    exact List.inj_on_of_nodup_map hconv hc hc2 heq

/-- C5 witness: the completed sample store is well-formed, and the 1:1
correspondence holds there. -/
theorem converted_image_one_to_one_witness :
    (∀ c ∈ Store.converted exStoreDone, ∃! j, j ∈ Store.jobs exStoreDone ∧
        ConversionJob.id j = ConvertedImage.conversion_job_id c) ∧
      ∀ c ∈ Store.converted exStoreDone, ∀ c2 ∈ Store.converted exStoreDone,
        ConvertedImage.conversion_job_id c =
            ConvertedImage.conversion_job_id c2 → c = c2 :=
  converted_image_one_to_one exStoreDone
    (by refine ⟨by decide, by decide, by decide, ?_, ?_⟩ <;> decide)

/-- C9: in a store satisfying the schema constraints, every `ConversionJob`
references exactly one `UploadedImage` through its non-nullable
`source_image_id` foreign key, while `user_id` is nullable: nulling it never
affects a job's validation. -/
theorem job_references_one_image (s : Store) (hwf : Store.wf s) :
    (∀ j ∈ s.jobs, ∃! img, img ∈ s.images ∧
        UploadedImage.id img = ConversionJob.source_image_id j) ∧
      ∀ j : ConversionJob,
        ConversionJob.validate { j with user_id := none } =
          ConversionJob.validate j := by
  obtain ⟨himg, -, -, -, hsrc⟩ := hwf
  constructor
  · intro j hj
    obtain ⟨img, hi, hid⟩ := hsrc j hj
    refine ⟨img, ⟨hi, hid⟩, ?_⟩
    rintro img2 ⟨hi2, hid2⟩
    exact List.inj_on_of_nodup_map himg hi2 hi (by rw [hid2, hid])
  · intro j
    rfl

/-- C9 witness: the completed sample store is well-formed and every job there
resolves to exactly one source image. -/
theorem job_references_one_image_witness :
    (∀ j ∈ Store.jobs exStoreDone, ∃! img, img ∈ Store.images exStoreDone ∧
        UploadedImage.id img = ConversionJob.source_image_id j) ∧
      ∀ j : ConversionJob,
        ConversionJob.validate { j with user_id := none } =
          ConversionJob.validate j :=
  job_references_one_image exStoreDone
    (by refine ⟨by decide, by decide, by decide, ?_, ?_⟩ <;> decide)

/-- Membership in the jobs table after a row update: each row is either the
updated record or an untouched row with a different primary key. -/
theorem mem_updateJob {s : Store} {j k : ConversionJob}
    (h : k ∈ Store.jobs (s.updateJob j)) :
    k = j ∨ (k ∈ s.jobs ∧ ConversionJob.id k ≠ ConversionJob.id j) := by
  simp only [Store.updateJob, List.mem_map] at h
  obtain ⟨k0, hk0, hfk⟩ := h
  by_cases hid : (ConversionJob.id k0 == ConversionJob.id j) = true
  · rw [if_pos hid] at hfk
    exact Or.inl hfk.symm
  · rw [if_neg hid] at hfk
    subst hfk
    exact Or.inr ⟨hk0, by simpa using hid⟩

/-- The invariant of a single job only looks at the converted table, so it
transports across stores with equal converted tables. -/
theorem jobInvariant_of_converted_eq {s t : Store} {k : ConversionJob}
    (hconv : Store.converted t = Store.converted s) (h : jobInvariant s k) :
    jobInvariant t k := by
  unfold jobInvariant at h ⊢
  rw [hconv]
  exact h

/-- What the invariant says about a PENDING job: no timestamps, no artifact. -/
theorem jobInvariant_pending_elim {s : Store} {j : ConversionJob}
    (h : jobInvariant s j) (hp : ConversionJob.status j = .pending) :
    ConversionJob.started_at j = none ∧ ConversionJob.completed_at j = none ∧
      ¬ ∃ c ∈ s.converted,
          ConvertedImage.conversion_job_id c = ConversionJob.id j := by
  obtain ⟨i1, i2, i3⟩ := h
  rw [hp] at i1 i2 i3
  refine ⟨?_, ?_, ?_⟩
  · cases hsa : ConversionJob.started_at j with
    | none => rfl
    | some d =>
      have hfalse := i1.mp (by rw [hsa]; rfl)
      simp at hfalse
  · cases hco : ConversionJob.completed_at j with
    | none => rfl
    | some d =>
      have hfalse := i2.mp (by rw [hco]; rfl)
      simp at hfalse
  · intro hex
    have hfalse := i3.mp hex
    simp at hfalse

/-- What the invariant says about a PROCESSING job: `started_at` set,
`completed_at` null, no artifact yet. -/
theorem jobInvariant_processing_elim {s : Store} {j : ConversionJob}
    (h : jobInvariant s j) (hp : ConversionJob.status j = .processing) :
    Option.isSome (ConversionJob.started_at j) = true ∧
      ConversionJob.completed_at j = none ∧
      ¬ ∃ c ∈ s.converted,
          ConvertedImage.conversion_job_id c = ConversionJob.id j := by
  obtain ⟨i1, i2, i3⟩ := h
  rw [hp] at i1 i2 i3
  refine ⟨i1.mpr (Or.inl rfl), ?_, ?_⟩
  · cases hco : ConversionJob.completed_at j with
    | none => rfl
    | some d =>
      have hfalse := i2.mp (by rw [hco]; rfl)
      simp at hfalse
  · intro hex
    have hfalse := i3.mp hex
    simp at hfalse

/-- C1 (amended): the §3 job invariant — `started_at` set iff status is
PROCESSING/COMPLETED/FAILED, `completed_at` set iff status is
COMPLETED/FAILED, artifact present iff status is COMPLETED — is established
by `submit` (for a fresh job id) and preserved by the `claim`, `succeed` and
`fail` transitions. The spec's `cancel` transition is the one exception,
exhibited separately. -/
theorem lifecycle_preserves_job_invariant (s : Store)
    (hinv : storeInvariant s) :
    (∀ now newId req j s',
        (∀ c ∈ s.converted, ConvertedImage.conversion_job_id c ≠ newId) →
        submit s now newId req = (Except.ok j, s') → storeInvariant s') ∧
      (∀ jobId now s', claimOp s jobId now = Except.ok s' →
        storeInvariant s') ∧
      (∀ jobId now artifact s',
        succeedOp s jobId now artifact = Except.ok s' → storeInvariant s') ∧
      ∀ jobId now err s', failOp s jobId now err = Except.ok s' →
        storeInvariant s' := by
  refine ⟨?_, ?_, ?_, ?_⟩
  · -- submit
    intro now newId req j s' hfresh hsub
    unfold submit at hsub
    split at hsub
    · simp only [Prod.mk.injEq, Except.ok.injEq] at hsub
      obtain ⟨hj, hs⟩ := hsub
      subst hs
      intro k hk
      rcases List.mem_append.mp hk with hks | hknew
      · exact jobInvariant_of_converted_eq rfl (hinv k hks)
      · rw [List.mem_singleton] at hknew
        subst hknew
        unfold jobInvariant
        refine ⟨by simp, by simp, ?_⟩
        constructor
        · rintro ⟨c, hc, hfk⟩
          exact absurd hfk (hfresh c hc)
        · intro hx
          simp at hx
    · simp at hsub
  · -- claim
    intro jobId now s' h
    unfold claimOp at h
    split at h
    next => simp at h
    next j hfind =>
      have hjmem : j ∈ s.jobs := List.mem_of_find?_eq_some hfind
      split at h
      next j2 hcl =>
        simp only [Except.ok.injEq] at h
        subst h
        unfold ConversionJob.claim at hcl
        split at hcl
        next hp =>
          simp only [Except.ok.injEq] at hcl
          subst hcl
          intro k hk
          rcases mem_updateJob hk with hkeq | ⟨hks, hkid⟩
          · subst hkeq
            obtain ⟨hsa, hco, hnoc⟩ :=
              jobInvariant_pending_elim (hinv j hjmem) hp
            unfold jobInvariant
            refine ⟨by simp, by simp [hco], ?_⟩
            constructor
            · rintro ⟨c, hc, hfk⟩
              exact absurd ⟨c, hc, hfk⟩ hnoc
            · intro hx
              simp at hx
          · exact jobInvariant_of_converted_eq rfl (hinv k hks)
        next hp => simp at hcl
      next e hcl => simp at h
  · -- succeed
    intro jobId now artifact s' h
    unfold succeedOp at h
    split at h
    next => simp at h
    next j hfind =>
      have hjmem : j ∈ s.jobs := List.mem_of_find?_eq_some hfind
      split at h
      next j2 hcl =>
        simp only [Except.ok.injEq] at h
        subst h
        unfold ConversionJob.succeed at hcl
        split at hcl
        next st hst hsa =>
          simp only [Except.ok.injEq] at hcl
          subst hcl
          obtain ⟨hss, hco, hnoc⟩ :=
            jobInvariant_processing_elim (hinv j hjmem) hst
          intro k hk
          rcases mem_updateJob hk with hkeq | ⟨hks, hkid⟩
          · subst hkeq
            unfold jobInvariant
            refine ⟨by simp [hsa], by simp, ?_⟩
            constructor
            · intro _
              rfl
            · intro _
              exact ⟨{ artifact with conversion_job_id := ConversionJob.id j },
                by simp, rfl⟩
          · obtain ⟨i1, i2, i3⟩ := hinv k hks
            unfold jobInvariant
            refine ⟨i1, i2, ?_⟩
            constructor
            · rintro ⟨c, hc, hfk⟩
              rcases List.mem_append.mp hc with hc2 | hc2
              · exact i3.mp ⟨c, hc2, hfk⟩
              · rw [List.mem_singleton] at hc2
                subst hc2
                exact absurd hfk.symm hkid
            · intro hkc
              obtain ⟨c, hc, hfk⟩ := i3.mpr hkc
              exact ⟨c, List.mem_append_left _ hc, hfk⟩
        next => simp at hcl
      next e hcl => simp at h
  · -- fail
    intro jobId now err s' h
    unfold failOp at h
    split at h
    next => simp at h
    next j hfind =>
      have hjmem : j ∈ s.jobs := List.mem_of_find?_eq_some hfind
      split at h
      next j2 hcl =>
        simp only [Except.ok.injEq] at h
        subst h
        unfold ConversionJob.fail at hcl
        split at hcl
        next st hst hsa =>
          simp only [Except.ok.injEq] at hcl
          subst hcl
          obtain ⟨hss, hco, hnoc⟩ :=
            jobInvariant_processing_elim (hinv j hjmem) hst
          intro k hk
          rcases mem_updateJob hk with hkeq | ⟨hks, hkid⟩
          · subst hkeq
            unfold jobInvariant
            refine ⟨by simp [hsa], by simp, ?_⟩
            constructor
            · rintro ⟨c, hc, hfk⟩
              exact absurd ⟨c, hc, hfk⟩ hnoc
            · intro hx
              simp at hx
          · exact jobInvariant_of_converted_eq rfl (hinv k hks)
        next => simp at hcl
      next e hcl => simp at h

/-- C1 witness: the preservation theorem applied to the sample store —
claiming the pending sample job yields a store still satisfying the
invariant. -/
theorem lifecycle_preserves_job_invariant_witness :
    storeInvariant exClaimedStore :=
  (lifecycle_preserves_job_invariant exStoreAfter
    (by unfold storeInvariant jobInvariant; decide)).2.1 1 exNow
    exClaimedStore rfl

/-- C1 counterexample: the claim fails for the `cancel` operation as the spec
writes it — the sample store satisfies the invariant, cancelling its PENDING
job succeeds, and the resulting store violates the invariant (a FAILED job
with `started_at` and `completed_at` both null). -/
theorem cancel_breaks_job_invariant :
    storeInvariant exStoreAfter ∧
      cancelOp exStoreAfter 1 = Except.ok exCancelledStore ∧
      ¬ storeInvariant exCancelledStore :=
  ⟨by unfold storeInvariant jobInvariant; decide, rfl,
    by unfold storeInvariant jobInvariant; decide⟩
